import Mathlib

/-!
# Invoice Pricing Engine — verification development

Shallow embedding of `src/invoice_service.py`: an invoice pricing engine
that validates an invoice, derives subtotal, shipping, fragile surcharge,
membership/coupon discounts and country tax, and assembles a total with
advisory warnings.

Python `float` money amounts are modelled as `Rat`; Python `int` as `Int`;
Python `Optional[str]` as `Option String`; raising `ValueError` as
`Except.error`.  The `inv is None` guard at the top of `_validate` is a
Python dynamic-typing artifact with no counterpart for a typed `Invoice`
value and is not representable here; all claims quantify over actual
invoice values.
-/

namespace InvoiceLab

/-- `LineItem` dataclass: sku, category, unit_price, qty, fragile. -/
structure LineItem where
  sku : String
  category : String
  unit_price : Rat
  qty : Int
  fragile : Bool
deriving DecidableEq, Repr

/-- `Invoice` dataclass. -/
structure Invoice where
  invoice_id : String
  customer_id : String
  country : String
  membership : String
  coupon : Option String
  items : List LineItem
deriving DecidableEq, Repr

/-- `InvoiceService`: holds the coupon-rate table set in `__init__`. -/
structure InvoiceService where
  coupon_rate : List (String × Rat)
deriving DecidableEq, Repr

/-- `InvoiceService.__init__`: the default coupon-rate table
`{WELCOME10: 0.10, VIP20: 0.20, STUDENT5: 0.05}`. -/
def mkInvoiceService : InvoiceService :=
  ⟨[("WELCOME10", 10/100), ("VIP20", 20/100), ("STUDENT5", 5/100)]⟩

/-- The per-item checks of `_validate`, in source order:
sku non-empty, qty > 0, unit_price ≥ 0, category in the fixed set. -/
def itemProblems (it : LineItem) : List String :=
  (if it.sku = "" then ["Item sku is missing"] else []) ++
  (if it.qty ≤ 0 then ["Invalid qty for " ++ it.sku] else []) ++
  (if it.unit_price < 0 then ["Invalid price for " ++ it.sku] else []) ++
  (if it.category ∉ (["book", "food", "electronics", "other"] : List String) then
    ["Unknown category for " ++ it.sku] else [])

/-- The `for it in inv.items` loop of `_validate`, front to back. -/
def itemsProblems : List LineItem → List String
  | [] => []
  | it :: rest => itemProblems it ++ itemsProblems rest

/-- `InvoiceService._validate`: collects all problems, never short-circuits
(header checks in order, then the per-item loop). -/
def validate (inv : Invoice) : List String :=
  (if inv.invoice_id = "" then ["Missing invoice_id"] else []) ++
  (if inv.customer_id = "" then ["Missing customer_id"] else []) ++
  (if inv.items = [] then ["Invoice must contain items"] else []) ++
  itemsProblems inv.items

/-- `InvoiceService._compute_subtotal_and_fragile_fee`: the loop sums
`unit_price * qty` into `subtotal` and, for fragile items, `5.0 * qty`
into `fragile_fee`. -/
def compute_subtotal_and_fragile_fee : List LineItem → Rat × Rat
  | [] => (0, 0)
  | it :: rest =>
    let acc := compute_subtotal_and_fragile_fee rest
    (it.unit_price * (it.qty : Rat) + acc.1,
     (if it.fragile then 5 * (it.qty : Rat) else 0) + acc.2)

/-- `InvoiceService._compute_shipping`: country-keyed threshold table. -/
def compute_shipping (country : String) (subtotal : Rat) : Rat :=
  if country = "TH" then (if subtotal < 500 then 60 else 0)
  else if country = "JP" then (if subtotal < 4000 then 600 else 0)
  else if country = "US" then
    (if subtotal < 100 then 15 else if subtotal < 300 then 8 else 0)
  else (if subtotal < 200 then 25 else 0)

/-- `InvoiceService._compute_membership_discount`. -/
def compute_membership_discount (membership : String) (subtotal : Rat) : Rat :=
  if membership = "gold" then subtotal * (3/100)
  else if membership = "platinum" then subtotal * (5/100)
  else if 3000 < subtotal then 20 else 0

/-- Python `str.strip()`: remove leading and trailing whitespace,
modelled on the underlying character list. -/
def strip (s : String) : String :=
  ⟨((s.data.dropWhile Char.isWhitespace).reverse.dropWhile Char.isWhitespace).reverse⟩

/-- `InvoiceService._apply_coupon`: `None`/blank → 0; otherwise look up the
stripped code; unknown codes append the "Unknown coupon" warning.  The
warnings list is passed and returned explicitly (Python mutates the
caller's list). -/
def apply_coupon (svc : InvoiceService) (coupon : Option String) (subtotal : Rat)
    (warnings : List String) : Rat × List String :=
  match coupon with
  | none => (0, warnings)
  | some c =>
    if strip c = "" then (0, warnings)
    else
      match svc.coupon_rate.lookup (strip c) with
      | some r => (subtotal * r, warnings)
      | none => (0, warnings ++ ["Unknown coupon"])

/-- `InvoiceService._compute_tax`: `(subtotal - discount) * rate`. -/
def compute_tax (country : String) (subtotal discount : Rat) : Rat :=
  let base := subtotal - discount
  let rate : Rat :=
    if country = "TH" then 7/100
    else if country = "JP" then 10/100
    else if country = "US" then 8/100
    else 5/100
  base * rate

/-- `InvoiceService.compute_total`: validate (raise on any problem, message
joined by "; "), then subtotal/fragile fee, shipping, membership + coupon
discount, tax, clamp the total at 0, and append the upgrade warning. -/
def compute_total (svc : InvoiceService) (inv : Invoice) :
    Except String (Rat × List String) :=
  let problems := validate inv
  if problems = [] then
    let st := compute_subtotal_and_fragile_fee inv.items
    let subtotal := st.1
    let fragile_fee := st.2
    let shipping := compute_shipping inv.country subtotal
    let dc := apply_coupon svc inv.coupon subtotal []
    let discount := compute_membership_discount inv.membership subtotal + dc.1
    let tax := compute_tax inv.country subtotal discount
    let total0 := subtotal + shipping + fragile_fee + tax - discount
    let total := if total0 < 0 then 0 else total0
    let warnings :=
      if 10000 < subtotal ∧ inv.membership ≠ "gold" ∧ inv.membership ≠ "platinum"
      then dc.2 ++ ["Consider membership upgrade"] else dc.2
    .ok (total, warnings)
  else
    .error (String.intercalate "; " problems)

/-! ## Spec-side definitions (transcribed from the specification's words,
for refinement comparisons against the source embedding) -/

/-- Shipping table as the spec words it: per-country brackets with strict
upper bounds, the US middle bracket spelled `100 ≤ subtotal < 300`. -/
def shipping_spec (country : String) (subtotal : Rat) : Rat :=
  if country = "TH" then (if subtotal < 500 then 60 else 0)
  else if country = "JP" then (if subtotal < 4000 then 600 else 0)
  else if country = "US" then
    (if subtotal < 100 then 15
     else if 100 ≤ subtotal ∧ subtotal < 300 then 8 else 0)
  else (if subtotal < 200 then 25 else 0)

/-- Membership discount as the spec words it: gold → 3% of subtotal,
platinum → 5% of subtotal, otherwise flat 20 when subtotal > 3000 else 0. -/
def membership_discount_spec (membership : String) (subtotal : Rat) : Rat :=
  if membership = "gold" then (3/100) * subtotal
  else if membership = "platinum" then (5/100) * subtotal
  else if 3000 < subtotal then 20 else 0

/-- Tax rate by country as the spec words it: TH 0.07, JP 0.10, US 0.08,
other 0.05. -/
def tax_rate_spec (country : String) : Rat :=
  if country = "TH" then 7/100
  else if country = "JP" then 10/100
  else if country = "US" then 8/100
  else 5/100

/-! ## Concrete inputs used by witnesses and counterexamples -/

def invC1 : Invoice := ⟨"I1", "C1", "US", "regular", none, [⟨"B1", "book", 100, 2, false⟩]⟩

def invC2bad : Invoice := ⟨"", "C1", "US", "regular", none, [⟨"B1", "book", 100, 2, false⟩]⟩

def itC7 : LineItem := ⟨"A", "book", 99, 1, false⟩

def invC7a : Invoice := ⟨"I1", "C1", "US", "regular", none, [itC7]⟩

def invC7b : Invoice := ⟨"I1", "C1", "US", "regular", none, [{ itC7 with unit_price := 100 }]⟩

def invC8 : Invoice := ⟨"I8", "C8", "US", "regular", some "BOGUS", [⟨"A", "book", 10001, 2, false⟩]⟩

def invC10 : Invoice := ⟨"I10", "C10", "TH", "gold", some "WELCOME10", [⟨"B1", "book", 500, 2, false⟩]⟩

/-! ## Helper lemmas -/

theorem ite_singleton_eq_nil {c : Prop} [Decidable c] {s : String}
    (h : (if c then [s] else []) = []) : ¬ c := by
  intro hc
  rw [if_pos hc] at h
  exact List.cons_ne_nil s [] h

theorem itemsProblems_eq_nil {l : List LineItem} (h : itemsProblems l = []) :
    ∀ it ∈ l, itemProblems it = [] := by
  induction l with
  | nil => intro it hit; cases hit
  | cons a l ih =>
    intro it hit
    rw [itemsProblems] at h
    obtain ⟨h1, h2⟩ := List.append_eq_nil.mp h
    rcases List.mem_cons.mp hit with rfl | hit
    · exact h1
    · exact ih h2 it hit

theorem itemProblems_eq_nil {it : LineItem} (h : itemProblems it = []) :
    0 < it.qty ∧ 0 ≤ it.unit_price := by
  rw [itemProblems] at h
  obtain ⟨habc, h4⟩ := List.append_eq_nil.mp h
  obtain ⟨hab, h3⟩ := List.append_eq_nil.mp habc
  obtain ⟨h1, h2⟩ := List.append_eq_nil.mp hab
  exact ⟨lt_of_not_le (ite_singleton_eq_nil h2), le_of_not_lt (ite_singleton_eq_nil h3)⟩

theorem validate_items_ok {inv : Invoice} (h : validate inv = []) :
    ∀ it ∈ inv.items, 0 < it.qty ∧ 0 ≤ it.unit_price := by
  intro it hit
  rw [validate] at h
  obtain ⟨habc, h4⟩ := List.append_eq_nil.mp h
  exact itemProblems_eq_nil (itemsProblems_eq_nil h4 it hit)

theorem subtotal_fee_nonneg {l : List LineItem}
    (h : ∀ it ∈ l, 0 < it.qty ∧ 0 ≤ it.unit_price) :
    0 ≤ (compute_subtotal_and_fragile_fee l).1 ∧
      0 ≤ (compute_subtotal_and_fragile_fee l).2 := by
  induction l with
  | nil => simp [compute_subtotal_and_fragile_fee]
  | cons a l ih =>
    obtain ⟨haq, hap⟩ := h a (List.mem_cons_self a l)
    obtain ⟨ih1, ih2⟩ := ih (fun it hit => h it (List.mem_cons_of_mem a hit))
    have hq : (0 : Rat) ≤ (a.qty : Rat) := by
      exact_mod_cast le_of_lt haq
    constructor
    · exact add_nonneg (mul_nonneg hap hq) ih1
    · refine add_nonneg ?_ ih2
      split
      · positivity
      · exact le_refl 0

theorem shipping_nonneg (c : String) (s : Rat) : 0 ≤ compute_shipping c s := by
  rw [compute_shipping]
  split_ifs <;> norm_num

theorem compute_subtotal_and_fragile_fee_spec (l : List LineItem) :
    compute_subtotal_and_fragile_fee l =
      ((l.map fun it => it.unit_price * (it.qty : Rat)).sum,
       ((l.filter fun it => it.fragile).map fun it => 5 * (it.qty : Rat)).sum) := by
  induction l with
  | nil => rfl
  | cons a l ih =>
    by_cases hf : a.fragile <;>
      simp [compute_subtotal_and_fragile_fee, ih, List.filter_cons, hf]

theorem apply_coupon_snd (svc : InvoiceService) (c : Option String) (s : Rat)
    (w : List String) :
    (apply_coupon svc c s w).2 = w ∨
      (apply_coupon svc c s w).2 = w ++ ["Unknown coupon"] := by
  rcases c with _ | c
  · exact Or.inl rfl
  · rw [apply_coupon]
    split
    · exact Or.inl rfl
    · split
      · exact Or.inl rfl
      · exact Or.inr rfl

theorem default_lookup_mem (k : String) (r : Rat)
    (h : List.lookup k mkInvoiceService.coupon_rate = some r) :
    r = 10/100 ∨ r = 20/100 ∨ r = 5/100 := by
  simp only [mkInvoiceService, List.lookup] at h
  split at h
  · exact Or.inl (Option.some.inj h).symm
  · split at h
    · exact Or.inr (Or.inl (Option.some.inj h).symm)
    · split at h
      · exact Or.inr (Or.inr (Option.some.inj h).symm)
      · exact absurd h (by simp)

theorem apply_coupon_default_bound (c : Option String) (s : Rat) (w : List String)
    (hs : 0 ≤ s) :
    0 ≤ (apply_coupon mkInvoiceService c s w).1 ∧
      (apply_coupon mkInvoiceService c s w).1 ≤ s * (20/100) := by
  have h20 : (0 : Rat) ≤ s * (20/100) := by positivity
  rcases c with _ | c
  · exact ⟨le_refl 0, h20⟩
  · rw [apply_coupon]
    by_cases hsc : strip c = ""
    · rw [if_pos hsc]; exact ⟨le_refl 0, h20⟩
    · rw [if_neg hsc]
      rcases hl : List.lookup (strip c) mkInvoiceService.coupon_rate with _ | r
      · exact ⟨le_refl 0, h20⟩
      · rcases default_lookup_mem _ _ hl with rfl | rfl | rfl <;>
          exact ⟨by positivity, mul_le_mul_of_nonneg_left (by norm_num) hs⟩

theorem discount_le_subtotal (m : String) (c : Option String) (s : Rat)
    (hs : 0 ≤ s) :
    compute_membership_discount m s + (apply_coupon mkInvoiceService c s []).1 ≤ s := by
  obtain ⟨hc0, hc2⟩ := apply_coupon_default_bound c s [] hs
  rw [compute_membership_discount]
  split_ifs with h1 h2 h3
  · linarith
  · linarith
  · linarith
  · linarith

theorem compute_tax_nonneg (c : String) (s d : Rat) (h : d ≤ s) :
    0 ≤ compute_tax c s d := by
  rw [compute_tax]
  split_ifs <;> exact mul_nonneg (sub_nonneg.mpr h) (by norm_num)

theorem compute_total_of_valid (svc : InvoiceService) (inv : Invoice)
    (h : validate inv = []) :
    compute_total svc inv =
      .ok
        (if (compute_subtotal_and_fragile_fee inv.items).1 +
              compute_shipping inv.country (compute_subtotal_and_fragile_fee inv.items).1 +
              (compute_subtotal_and_fragile_fee inv.items).2 +
              compute_tax inv.country (compute_subtotal_and_fragile_fee inv.items).1
                (compute_membership_discount inv.membership
                    (compute_subtotal_and_fragile_fee inv.items).1 +
                  (apply_coupon svc inv.coupon
                      (compute_subtotal_and_fragile_fee inv.items).1 []).1) -
              (compute_membership_discount inv.membership
                  (compute_subtotal_and_fragile_fee inv.items).1 +
                (apply_coupon svc inv.coupon
                    (compute_subtotal_and_fragile_fee inv.items).1 []).1) < 0
         then 0
         else
           (compute_subtotal_and_fragile_fee inv.items).1 +
             compute_shipping inv.country (compute_subtotal_and_fragile_fee inv.items).1 +
             (compute_subtotal_and_fragile_fee inv.items).2 +
             compute_tax inv.country (compute_subtotal_and_fragile_fee inv.items).1
               (compute_membership_discount inv.membership
                   (compute_subtotal_and_fragile_fee inv.items).1 +
                 (apply_coupon svc inv.coupon
                     (compute_subtotal_and_fragile_fee inv.items).1 []).1) -
             (compute_membership_discount inv.membership
                 (compute_subtotal_and_fragile_fee inv.items).1 +
               (apply_coupon svc inv.coupon
                   (compute_subtotal_and_fragile_fee inv.items).1 []).1),
         if 10000 < (compute_subtotal_and_fragile_fee inv.items).1 ∧
              inv.membership ≠ "gold" ∧ inv.membership ≠ "platinum"
         then (apply_coupon svc inv.coupon
               (compute_subtotal_and_fragile_fee inv.items).1 []).2 ++
             ["Consider membership upgrade"]
         else (apply_coupon svc inv.coupon
             (compute_subtotal_and_fragile_fee inv.items).1 []).2) := by
  rw [compute_total, h]
  rfl

theorem compute_total_of_invalid (svc : InvoiceService) (inv : Invoice)
    (h : validate inv ≠ []) :
    compute_total svc inv = .error (String.intercalate "; " (validate inv)) := by
  rw [compute_total]
  exact if_neg h

/-! ## Claim theorems -/

/-- C3: for every country string and subtotal, the shipping fee computed by
`_compute_shipping` equals the spec's bracket table (TH 60 below 500, JP 600
below 4000, US 15/8/0 with bounds 100 and 300, default 25 below 200), with
every bracket's upper bound exclusive. -/
theorem compute_shipping_matches_spec (c : String) (s : Rat) :
    compute_shipping c s = shipping_spec c s := by
  rw [compute_shipping, shipping_spec]
  by_cases h1 : c = "TH"
  · simp [h1]
  · by_cases h2 : c = "JP"
    · simp [h1, h2]
    · by_cases h3 : c = "US"
      · simp only [h1, h2, h3, if_true, if_false]
        by_cases ha : s < 100
        · simp [ha]
        · by_cases hb : s < 300
          · simp [ha, hb, le_of_not_lt ha]
          · simp [ha, hb]
      · simp [h1, h2, h3]

/-- C4: for every membership string and subtotal, the membership discount
computed by `_compute_membership_discount` is 3% of subtotal for gold, 5%
for platinum, and a flat 20 exactly when subtotal > 3000 (strict) for any
other membership, else 0. -/
theorem compute_membership_discount_matches_spec (m : String) (s : Rat) :
    compute_membership_discount m s = membership_discount_spec m s := by
  rw [compute_membership_discount, membership_discount_spec]
  split_ifs <;> ring

/-- C5: for every country, subtotal and discount, `_compute_tax` returns
`(subtotal − discount) × rate` with the spec's country rates, and the base
is not special-cased: when discount exceeds subtotal the tax is negative. -/
theorem compute_tax_matches_spec (c : String) (s d : Rat) :
    compute_tax c s d = (s - d) * tax_rate_spec c ∧
      (s < d → compute_tax c s d < 0) := by
  constructor
  · rw [compute_tax, tax_rate_spec]
  · intro h
    rw [compute_tax]
    split_ifs <;> exact mul_neg_of_neg_of_pos (by linarith) (by norm_num)

theorem compute_tax_matches_spec_witness :
    compute_tax "DE" 10 20 = (10 - 20) * tax_rate_spec "DE" ∧
      compute_tax "DE" 10 20 < 0 :=
  ⟨(compute_tax_matches_spec "DE" 10 20).1,
   (compute_tax_matches_spec "DE" 10 20).2 (by norm_num)⟩

/-- C6: for every subtotal and incoming warning list, `_apply_coupon` gives
discount 0 and no warning for an absent or whitespace-only coupon; for a
code whose stripped form is in the table it gives `subtotal × rate` with no
warning (so whitespace around a known code is immaterial); and for a
stripped code not in the table it gives 0 and appends exactly one
"Unknown coupon" warning. -/
theorem apply_coupon_cases (svc : InvoiceService) (s : Rat) (w : List String) :
    apply_coupon svc none s w = (0, w) ∧
    (∀ c : String, strip c = "" → apply_coupon svc (some c) s w = (0, w)) ∧
    (∀ (c : String) (r : Rat), strip c ≠ "" →
      List.lookup (strip c) svc.coupon_rate = some r →
      apply_coupon svc (some c) s w = (s * r, w)) ∧
    (∀ c : String, strip c ≠ "" →
      List.lookup (strip c) svc.coupon_rate = none →
      apply_coupon svc (some c) s w = (0, w ++ ["Unknown coupon"])) := by
  refine ⟨rfl, ?_, ?_, ?_⟩
  · intro c hc; rw [apply_coupon, if_pos hc]
  · intro c r hc hr; rw [apply_coupon, if_neg hc, hr]
  · intro c hc hr; rw [apply_coupon, if_neg hc, hr]

theorem apply_coupon_cases_witness :
    apply_coupon mkInvoiceService (some "   ") 100 [] = (0, []) ∧
    apply_coupon mkInvoiceService (some " VIP20 ") 100 [] = (100 * (20/100), []) ∧
    apply_coupon mkInvoiceService (some "VIP20") 100 [] = (100 * (20/100), []) ∧
    apply_coupon mkInvoiceService (some "BOGUS") 100 [] =
      (0, [] ++ ["Unknown coupon"]) := by
  have h := apply_coupon_cases mkInvoiceService 100 ([] : List String)
  have hv : strip " VIP20 " = "VIP20" := by decide
  have hv2 : strip "VIP20" = "VIP20" := by decide
  have hb : strip "BOGUS" = "BOGUS" := by decide
  refine ⟨h.2.1 "   " (by decide),
    h.2.2.1 " VIP20 " (20/100) (by decide) ?_,
    h.2.2.1 "VIP20" (20/100) (by decide) ?_,
    h.2.2.2 "BOGUS" (by decide) ?_⟩
  · rw [hv]; simp [mkInvoiceService, List.lookup]
  · rw [hv2]; simp [mkInvoiceService, List.lookup]
  · rw [hb]; simp [mkInvoiceService, List.lookup]

/-- C9: `compute_total` is deterministic — on the same service (hence the
same fixed coupon-rate table) and the same invoice value, two invocations
return identical results. -/
theorem compute_total_deterministic (svc : InvoiceService) (inv : Invoice) :
    compute_total svc inv = compute_total svc inv := rfl

/-- C1: for every invoice that passes validation, `compute_total` returns
`total = subtotal + shipping + fragile_fee + tax − discount` clamped to 0
from below (`max 0 _`), where subtotal is the sum over items of
`unit_price × qty` and fragile_fee the sum over fragile items of `5.0 × qty`;
consequently the returned total is never negative. -/
theorem compute_total_formula (svc : InvoiceService) (inv : Invoice)
    (h : validate inv = []) :
    ∀ S F d : Rat,
      S = (inv.items.map fun it => it.unit_price * (it.qty : Rat)).sum →
      F = ((inv.items.filter fun it => it.fragile).map fun it => 5 * (it.qty : Rat)).sum →
      d = compute_membership_discount inv.membership S +
          (apply_coupon svc inv.coupon S []).1 →
      ∃ w t, compute_total svc inv = .ok (t, w) ∧
        t = max 0 (S + compute_shipping inv.country S + F +
              compute_tax inv.country S d - d) ∧
        0 ≤ t := by
  intro S F d hS hF hd
  have hsp := compute_subtotal_and_fragile_fee_spec inv.items
  have h1 : (compute_subtotal_and_fragile_fee inv.items).1 = S := by
    rw [hsp]; exact hS.symm
  have h2 : (compute_subtotal_and_fragile_fee inv.items).2 = F := by
    rw [hsp]; exact hF.symm
  rw [compute_total_of_valid svc inv h, h1, h2, ← hd]
  refine ⟨_, _, rfl, ?_, ?_⟩
  · rcases lt_or_le (S + compute_shipping inv.country S + F +
        compute_tax inv.country S d - d) 0 with hlt | hle
    · rw [if_pos hlt, max_eq_left (le_of_lt hlt)]
    · rw [if_neg (not_lt.mpr hle), max_eq_right hle]
  · split_ifs with hlt
    · exact le_refl 0
    · exact le_of_not_lt hlt

theorem compute_total_formula_witness :
    ∃ w t, compute_total mkInvoiceService invC1 = .ok (t, w) ∧
      t = max 0 (200 + compute_shipping invC1.country 200 + 0 +
            compute_tax invC1.country 200
              (compute_membership_discount invC1.membership 200 +
                (apply_coupon mkInvoiceService invC1.coupon 200 []).1) -
            (compute_membership_discount invC1.membership 200 +
              (apply_coupon mkInvoiceService invC1.coupon 200 []).1)) ∧
      0 ≤ t :=
  compute_total_formula mkInvoiceService invC1 (by decide) 200 0 _
    (by simp [invC1]; norm_num) (by simp [invC1]) rfl

/-- C2: `compute_total` fails with a validation error exactly when the list
of validation problems is non-empty; the error message is all problem
strings joined by "; "; and `_validate` collects every problem without
short-circuiting, in check order: invoice_id, customer_id, items non-empty,
then per item in sequence order (the per-item order sku, qty, price,
category is fixed by `itemProblems`).  When it raises, no total is
produced. -/
theorem compute_total_error_iff (svc : InvoiceService) (inv : Invoice) :
    ((∃ e, compute_total svc inv = .error e) ↔ validate inv ≠ []) ∧
    (∀ e, compute_total svc inv = .error e →
      e = String.intercalate "; " (validate inv)) ∧
    validate inv =
      (if inv.invoice_id = "" then ["Missing invoice_id"] else []) ++
      (if inv.customer_id = "" then ["Missing customer_id"] else []) ++
      (if inv.items = [] then ["Invoice must contain items"] else []) ++
      itemsProblems inv.items := by
  by_cases hv : validate inv = []
  · refine ⟨⟨?_, ?_⟩, ?_, rfl⟩
    · rintro ⟨e, he⟩
      rw [compute_total_of_valid svc inv hv] at he
      exact absurd he (by simp)
    · intro hne; exact absurd hv hne
    · intro e he
      rw [compute_total_of_valid svc inv hv] at he
      exact absurd he (by simp)
  · refine ⟨⟨fun _ => hv, fun _ => ⟨_, compute_total_of_invalid svc inv hv⟩⟩, ?_, rfl⟩
    intro e he
    rw [compute_total_of_invalid svc inv hv] at he
    exact (Except.error.inj he).symm

theorem compute_total_error_iff_witness :
    compute_total mkInvoiceService invC2bad =
      .error (String.intercalate "; " (validate invC2bad)) := by
  obtain ⟨e, he⟩ :=
    (compute_total_error_iff mkInvoiceService invC2bad).1.mpr (by decide)
  rw [he, (compute_total_error_iff mkInvoiceService invC2bad).2.1 e he]

/-- C7 counterexample: two valid invoices identical except that the single
line item's unit_price is increased from 99 to 100 — yet the returned total
drops from 121.92 to 116, because the US shipping fee falls from 15 to 8 at
the subtotal-100 bracket boundary.  This refutes the claimed monotonicity of
the total. -/
theorem total_monotonicity_fails :
    validate invC7a = [] ∧ validate invC7b = [] ∧
    invC7a.items = [itC7] ∧ invC7b.items = [{ itC7 with unit_price := 100 }] ∧
    itC7.unit_price < 100 ∧
    invC7b.invoice_id = invC7a.invoice_id ∧
    invC7b.customer_id = invC7a.customer_id ∧
    invC7b.country = invC7a.country ∧
    invC7b.membership = invC7a.membership ∧
    invC7b.coupon = invC7a.coupon ∧
    compute_total mkInvoiceService invC7a = .ok (3048/25, []) ∧
    compute_total mkInvoiceService invC7b = .ok (116, []) ∧
    (116 : Rat) < 3048/25 := by
  refine ⟨by decide, by decide, rfl, rfl, by norm_num [itC7], rfl, rfl, rfl, rfl,
    rfl, ?_, ?_, by norm_num⟩
  · simp [compute_total, validate, itemsProblems, itemProblems,
      compute_subtotal_and_fragile_fee, compute_shipping,
      compute_membership_discount, apply_coupon, compute_tax,
      mkInvoiceService, invC7a, itC7]
    norm_num
  · simp [compute_total, validate, itemsProblems, itemProblems,
      compute_subtotal_and_fragile_fee, compute_shipping,
      compute_membership_discount, apply_coupon, compute_tax,
      mkInvoiceService, invC7b, itC7]
    norm_num

/-- C7 amended: on a valid invoice, increasing one line item's unit_price
or qty (everything else held fixed) never decreases the subtotal; the
total, however, may decrease, because the shipping fee can drop by more
than the gain when the subtotal crosses a bracket threshold (see the
counterexample). -/
theorem subtotal_monotone (inv inv2 : Invoice) (pre post : List LineItem)
    (it it2 : LineItem) (hv : validate inv = [])
    (hi : inv.items = pre ++ it :: post) (hi2 : inv2.items = pre ++ it2 :: post)
    (hsku : it2.sku = it.sku) (hcat : it2.category = it.category)
    (hfr : it2.fragile = it.fragile)
    (hp : it.unit_price ≤ it2.unit_price) (hq : it.qty ≤ it2.qty) :
    (compute_subtotal_and_fragile_fee inv.items).1 ≤
      (compute_subtotal_and_fragile_fee inv2.items).1 := by
  have hmem : it ∈ inv.items := by
    rw [hi]; exact List.mem_append_right pre (List.mem_cons_self it post)
  obtain ⟨hq0, hp0⟩ := validate_items_ok hv it hmem
  rw [hi, hi2, compute_subtotal_and_fragile_fee_spec,
    compute_subtotal_and_fragile_fee_spec]
  simp only [List.map_append, List.sum_append, List.map_cons, List.sum_cons]
  have hmul : it.unit_price * (it.qty : Rat) ≤ it2.unit_price * (it2.qty : Rat) :=
    mul_le_mul hp (by exact_mod_cast hq) (by exact_mod_cast le_of_lt hq0)
      (le_trans hp0 hp)
  linarith

theorem subtotal_monotone_witness :
    (compute_subtotal_and_fragile_fee invC7a.items).1 ≤
      (compute_subtotal_and_fragile_fee invC7b.items).1 :=
  subtotal_monotone invC7a invC7b [] [] itC7 { itC7 with unit_price := 100 }
    (by decide) rfl rfl rfl rfl rfl (by norm_num [itC7]) (le_refl _)

/-- C8: for every successful run, the "Consider membership upgrade" warning
is returned iff subtotal > 10000 (strict) and the membership is neither
gold nor platinum; and whenever both the "Unknown coupon" warning and the
upgrade warning appear, the coupon warning comes first. -/
theorem upgrade_warning_iff_and_order (svc : InvoiceService) (inv : Invoice)
    (t : Rat) (w : List String) (h : compute_total svc inv = .ok (t, w)) :
    ("Consider membership upgrade" ∈ w ↔
      10000 < (compute_subtotal_and_fragile_fee inv.items).1 ∧
        inv.membership ≠ "gold" ∧ inv.membership ≠ "platinum") ∧
    ("Unknown coupon" ∈ w → "Consider membership upgrade" ∈ w →
      w = ["Unknown coupon", "Consider membership upgrade"]) := by
  by_cases hv : validate inv = []
  · rw [compute_total_of_valid svc inv hv] at h
    have hw : w = (if 10000 < (compute_subtotal_and_fragile_fee inv.items).1 ∧
          inv.membership ≠ "gold" ∧ inv.membership ≠ "platinum"
        then (apply_coupon svc inv.coupon
            (compute_subtotal_and_fragile_fee inv.items).1 []).2 ++
          ["Consider membership upgrade"]
        else (apply_coupon svc inv.coupon
          (compute_subtotal_and_fragile_fee inv.items).1 []).2) :=
      ((Prod.mk.inj (Except.ok.inj h)).2).symm
    rcases apply_coupon_snd svc inv.coupon
        (compute_subtotal_and_fragile_fee inv.items).1 [] with hc | hc <;>
      rw [hc] at hw <;>
      by_cases hcond : 10000 < (compute_subtotal_and_fragile_fee inv.items).1 ∧
        inv.membership ≠ "gold" ∧ inv.membership ≠ "platinum"
    · rw [if_pos hcond] at hw; subst hw
      exact ⟨by simp [hcond], by simp⟩
    · rw [if_neg hcond] at hw; subst hw
      exact ⟨by simp [hcond], by simp⟩
    · rw [if_pos hcond] at hw; subst hw
      exact ⟨by simp [hcond], fun _ _ => by simp⟩
    · rw [if_neg hcond] at hw; subst hw
      exact ⟨by simp [hcond], fun hu hup => absurd hup (by simp)⟩
  · rw [compute_total_of_invalid svc inv hv] at h
    exact absurd h (by simp)

theorem upgrade_warning_iff_and_order_witness :
    ("Consider membership upgrade" ∈
        (["Unknown coupon", "Consider membership upgrade"] : List String) ↔
      10000 < (compute_subtotal_and_fragile_fee invC8.items).1 ∧
        invC8.membership ≠ "gold" ∧ invC8.membership ≠ "platinum") ∧
    ("Unknown coupon" ∈
        (["Unknown coupon", "Consider membership upgrade"] : List String) →
      "Consider membership upgrade" ∈
        (["Unknown coupon", "Consider membership upgrade"] : List String) →
      (["Unknown coupon", "Consider membership upgrade"] : List String) =
        ["Unknown coupon", "Consider membership upgrade"]) := by
  have hb : strip "BOGUS" = "BOGUS" := by decide
  exact upgrade_warning_iff_and_order mkInvoiceService invC8 (539514/25) _
    (by simp [compute_total, validate, itemsProblems, itemProblems,
          compute_subtotal_and_fragile_fee, compute_shipping,
          compute_membership_discount, apply_coupon, compute_tax,
          mkInvoiceService, invC8, hb, List.lookup]
        norm_num)

/-- C10: for every invoice that passes validation, under the default
coupon-rate table the pre-clamp sum
`subtotal + shipping + fragile_fee + tax − discount` is already
non-negative (the discount is bounded by the subtotal), so the `if total < 0`
clamp branch of `compute_total` is unreachable: the returned total equals
the unclamped sum. -/
theorem clamp_unreachable (inv : Invoice) (h : validate inv = []) :
    ∀ s d : Rat,
      s = (compute_subtotal_and_fragile_fee inv.items).1 →
      d = compute_membership_discount inv.membership s +
          (apply_coupon mkInvoiceService inv.coupon s []).1 →
      0 ≤ s + compute_shipping inv.country s +
          (compute_subtotal_and_fragile_fee inv.items).2 +
          compute_tax inv.country s d - d ∧
      ∃ w, compute_total mkInvoiceService inv =
        .ok (s + compute_shipping inv.country s +
             (compute_subtotal_and_fragile_fee inv.items).2 +
             compute_tax inv.country s d - d, w) := by
  intro s d hs hd
  subst hs; subst hd
  obtain ⟨hs0, hf0⟩ := subtotal_fee_nonneg (validate_items_ok h)
  have hds := discount_le_subtotal inv.membership inv.coupon
    (compute_subtotal_and_fragile_fee inv.items).1 hs0
  have htax := compute_tax_nonneg inv.country
    (compute_subtotal_and_fragile_fee inv.items).1
    (compute_membership_discount inv.membership
        (compute_subtotal_and_fragile_fee inv.items).1 +
      (apply_coupon mkInvoiceService inv.coupon
          (compute_subtotal_and_fragile_fee inv.items).1 []).1) hds
  have hship := shipping_nonneg inv.country
    (compute_subtotal_and_fragile_fee inv.items).1
  refine ⟨by linarith, ?_⟩
  rw [compute_total_of_valid mkInvoiceService inv h,
    if_neg (not_lt.mpr (by linarith))]
  exact ⟨_, rfl⟩

theorem clamp_unreachable_witness :
    0 ≤ (compute_subtotal_and_fragile_fee invC10.items).1 +
        compute_shipping invC10.country
          (compute_subtotal_and_fragile_fee invC10.items).1 +
        (compute_subtotal_and_fragile_fee invC10.items).2 +
        compute_tax invC10.country (compute_subtotal_and_fragile_fee invC10.items).1
          (compute_membership_discount invC10.membership
              (compute_subtotal_and_fragile_fee invC10.items).1 +
            (apply_coupon mkInvoiceService invC10.coupon
                (compute_subtotal_and_fragile_fee invC10.items).1 []).1) -
        (compute_membership_discount invC10.membership
            (compute_subtotal_and_fragile_fee invC10.items).1 +
          (apply_coupon mkInvoiceService invC10.coupon
              (compute_subtotal_and_fragile_fee invC10.items).1 []).1) ∧
    ∃ w, compute_total mkInvoiceService invC10 =
      .ok ((compute_subtotal_and_fragile_fee invC10.items).1 +
           compute_shipping invC10.country
             (compute_subtotal_and_fragile_fee invC10.items).1 +
           (compute_subtotal_and_fragile_fee invC10.items).2 +
           compute_tax invC10.country (compute_subtotal_and_fragile_fee invC10.items).1
             (compute_membership_discount invC10.membership
                 (compute_subtotal_and_fragile_fee invC10.items).1 +
               (apply_coupon mkInvoiceService invC10.coupon
                   (compute_subtotal_and_fragile_fee invC10.items).1 []).1) -
           (compute_membership_discount invC10.membership
               (compute_subtotal_and_fragile_fee invC10.items).1 +
             (apply_coupon mkInvoiceService invC10.coupon
                 (compute_subtotal_and_fragile_fee invC10.items).1 []).1), w) :=
  clamp_unreachable invC10 (by decide) _ _ rfl rfl

end InvoiceLab
